import Mathlib

/-!
Verification of the server-side tunnel fabric of `ahmadrosid/tunnel`.

Strings from the Go source are embedded as `List Char`; every Go function
relevant to the claims is translated into an executable Lean definition that
mirrors the source structure (JSON decoding, randomness, UUID generation and
wall-clock time are supplied as explicit oracle arguments).
-/

deriving instance DecidableEq for Except

namespace Tunnel

/-- Strings are modelled as lists of characters. -/
abbrev Str := List Char

/-! ## String helpers (Go `strings` package subset used by the source) -/

/-- Whitespace characters recognised by `strings.TrimSpace` (ASCII subset). -/
def isSpaceChar (c : Char) : Bool :=
  c = ' ' || c = '\t' || c = '\n' || c = '\r'

/-- ASCII lower-casing of one character, as `strings.ToLower` does on ASCII. -/
def asciiLower (c : Char) : Char :=
  if 'A' ≤ c ∧ c ≤ 'Z' then Char.ofNat (c.toNat + 32) else c

/-- `strings.ToLower` on the ASCII fragment. -/
def lowerStr (s : Str) : Str := s.map asciiLower

/-- `strings.TrimSpace`: drop leading and trailing whitespace. -/
def trimSpace (s : Str) : Str :=
  ((s.dropWhile isSpaceChar).reverse.dropWhile isSpaceChar).reverse

/-- `strings.HasSuffix s suffix`. -/
def endsWith (s suff : Str) : Bool := decide (suff <:+ s)

/-- `strings.TrimSuffix`: remove `suff` from the end of `s` when present. -/
def trimSuffix (s suff : Str) : Str :=
  if endsWith s suff then s.take (s.length - suff.length) else s

/-- `host[:strings.Index(host, ":")]` when a colon is present, else `host`. -/
def stripPort (host : Str) : Str := host.takeWhile (fun c => c ≠ ':')

/-! ## Subdomain policy (`internal/subdomain/generator.go`) -/

/-- A lowercase letter or digit, the class `[a-z0-9]` of the source regex. -/
def isLowerAlnum (c : Char) : Bool :=
  ('a' ≤ c && c ≤ 'z') || ('0' ≤ c && c ≤ '9')

/-- The inner class `[a-z0-9-]` of the source regex. -/
def isInnerChar (c : Char) : Bool := isLowerAlnum c || c = '-'

/-- Matches `[a-z0-9-]*[a-z0-9]$`: all characters but the last are inner
characters and the last is alphanumeric. -/
def innerTail : Str → Bool
  | [] => false
  | [d] => isLowerAlnum d
  | c :: rest => isInnerChar c && innerTail rest

/-- The source regex `^[a-z0-9]([a-z0-9-]{0,61}[a-z0-9])?$`
(`validSubdomainPattern.MatchString`). -/
def matchesPattern : Str → Bool
  | [] => false
  | [c] => isLowerAlnum c
  | c :: rest => isLowerAlnum c && innerTail rest && decide (rest.length ≤ 62)

/-- The hard-coded reserved subdomains of `Validate`. -/
def reservedList : List Str :=
  [("www").data, ("api").data, ("admin").data, ("mail").data,
   ("ftp").data, ("localhost").data]

/-- `subdomain.Validate`: lowercase, then check length, pattern and the
reserved list, returning the error message of the first failing check. -/
def Validate (s : Str) : Except Str Unit :=
  let s := lowerStr s
  if s.length < 1 ∨ s.length > 63 then
    .error (("subdomain must be between 1 and 63 characters").data)
  else if matchesPattern s = false then
    .error (("subdomain must contain only lowercase letters, numbers, and hyphens").data)
  else if s ∈ reservedList then
    .error ((("subdomain '").data) ++ s ++ (("' is reserved").data))
  else
    .ok ()

/-- `subdomain.Normalize`: `strings.ToLower(strings.TrimSpace(s))`. -/
def Normalize (s : Str) : Str := lowerStr (trimSpace s)

/-- One hexadecimal digit, as used by `hex.EncodeToString`. -/
def hexDigit (n : Nat) : Char := (("0123456789abcdef").data).getD n '0'

/-- Hex encoding of one byte (two characters). -/
def hexByte (b : Nat) : Str := [hexDigit (b % 256 / 16), hexDigit (b % 16)]

/-- `subdomain.Generate`: hex encoding of 4 random bytes (8 characters).
The random bytes are oracle arguments; the randomness-source failure branch
of the Go code is not taken on the success path modelled here. -/
def Generate (b0 b1 b2 b3 : Nat) : Str :=
  hexByte b0 ++ hexByte b1 ++ hexByte b2 ++ hexByte b3

example : Validate (("a").data) = .ok () := by decide
example : Validate (("-a").data) ≠ .ok () := by decide
example : Validate (("a-").data) ≠ .ok () := by decide
example : Validate (("AA").data) = .ok () := by decide
example : Normalize (("AA").data) = ("aa").data := by decide
example : Validate (List.replicate 63 'a') = .ok () := by decide
example : Validate (List.replicate 64 'a') ≠ .ok () := by decide
example : (Generate 1 2 3 4).length = 8 := by decide
example : Generate 255 0 171 205 = ("ff00abcd").data := by decide

/-! ## Registry (`internal/tunnel/registry.go`, WebSocket variant) -/

/-- `tunnel.Tunnel`: the WebSocket connection is identified abstractly by a
numeric id (`connId`); timestamps are naturals. -/
structure Tunnel where
  id : Str
  subdomain : Str
  connId : Nat
  localAddr : Str
  remotePort : Int
  createdAt : Nat
deriving DecidableEq, Repr

/-- `tunnel.Registry`: the Go map `subdomain -> *Tunnel` is modelled as an
association list whose reachable states keep keys distinct. -/
abbrev Registry := List (Str × Tunnel)

/-- Go map indexing `r.tunnels[s]`. -/
def lookupT : Registry → Str → Option Tunnel
  | [], _ => none
  | (k, t) :: rest, s => if k = s then some t else lookupT rest s

/-- `Registry.Register`: insert iff the subdomain key is absent, otherwise
return the `already in use` error and leave the map unchanged. -/
def registerT (r : Registry) (t : Tunnel) : Except Str Registry :=
  match lookupT r t.subdomain with
  | some _ =>
      .error ((("subdomain '").data) ++ t.subdomain ++ (("' is already in use").data))
  | none => .ok ((t.subdomain, t) :: r)

/-- `Registry.Unregister`: `delete(r.tunnels, subdomain)` — removes the key
entirely (idempotent). -/
def unregisterT (r : Registry) (s : Str) : Registry :=
  r.filter (fun p => decide (p.1 ≠ s))

/-- `Registry.Get`. -/
def getT (r : Registry) (s : Str) : Option Tunnel := lookupT r s

/-- `Registry.IsSubdomainAvailable`. -/
def isSubdomainAvailable (r : Registry) (s : Str) : Bool := (lookupT r s).isNone

/-- `Registry.Count`. -/
def countT (r : Registry) : Nat := r.length

/-! ## Session handler (`internal/websocket/handler.go`) -/

/-- `websocket.RegisterRequest` after JSON decoding. -/
structure RegisterRequest where
  subdomain : Str
  localAddr : Str
  localPort : Int
deriving DecidableEq, Repr

/-- `websocket.RegisterResponse`. -/
structure RegisterResponse where
  tunnelID : Str
  subdomain : Str
  fullDomain : Str
  localAddr : Str
  message : Str
deriving DecidableEq, Repr

/-- `websocket.Handler`: the config contributes only `Domain`; the wrapped
connection is the abstract `connId`. An empty `subdomain` means no tunnel is
registered on this control channel (the Handshaking state). -/
structure Handler where
  domain : Str
  connId : Nat
  tunnelID : Str
  subdomain : Str
deriving DecidableEq, Repr

/-- The `localAddr` computed by `handleRegister`: defaulted to
`localhost:<local_port>` when the request's `local_addr` is empty. -/
def defaultedLocalAddr (req : RegisterRequest) : Str :=
  if req.localAddr = [] then (("localhost:").data) ++ (toString req.localPort).data
  else req.localAddr

/-- The `tunnel.Tunnel` literal built by `handleRegister`. -/
def mkTunnel (h : Handler) (req : RegisterRequest) (sel uuid : Str) (now : Nat) : Tunnel :=
  { id := uuid, subdomain := sel, connId := h.connId,
    localAddr := defaultedLocalAddr req, remotePort := req.localPort, createdAt := now }

/-- The `RegisterResponse` literal built by `handleRegister`
(`full_domain = <subdomain>.<Domain>`). -/
def mkResponse (h : Handler) (req : RegisterRequest) (sel uuid : Str) : RegisterResponse :=
  { tunnelID := uuid, subdomain := sel, fullDomain := sel ++ '.' :: h.domain,
    localAddr := defaultedLocalAddr req,
    message := (("Tunnel created: https://").data) ++ (sel ++ '.' :: h.domain)
                ++ ((" -> ").data) ++ defaultedLocalAddr req }

/-- `Handler.handleRegister`. The JSON-decoded request, the 4 random bytes
consumed by `subdomain.Generate`, the fresh UUID and the current time are
oracle arguments. Returns the updated handler and registry together with the
success response, or the error that `HandleMessages` turns into an Error
reply. -/
def handleRegister (h : Handler) (r : Registry) (req : RegisterRequest)
    (b0 b1 b2 b3 : Nat) (uuid : Str) (now : Nat) :
    Except Str (Handler × Registry × RegisterResponse) :=
  let sel : Except Str Str :=
    if req.subdomain ≠ [] then
      let normalized := Normalize req.subdomain
      match Validate normalized with
      | .error e => .error ((("invalid subdomain: ").data) ++ e)
      | .ok _ =>
        if isSubdomainAvailable r normalized = false then
          .error ((("subdomain '").data) ++ normalized ++ (("' is already in use").data))
        else
          .ok normalized
    else
      .ok (Generate b0 b1 b2 b3)
  match sel with
  | .error e => .error e
  | .ok selectedSubdomain =>
    match registerT r (mkTunnel h req selectedSubdomain uuid now) with
    | .error e => .error ((("failed to register tunnel: ").data) ++ e)
    | .ok r' =>
      .ok ({ h with tunnelID := uuid, subdomain := selectedSubdomain }, r',
           mkResponse h req selectedSubdomain uuid)

/-- `Handler.handleUnregister`. -/
def handleUnregister (h : Handler) (r : Registry) : Except Str (Handler × Registry) :=
  if h.subdomain = [] then .error (("no tunnel registered").data)
  else .ok ({ h with tunnelID := [], subdomain := [] }, unregisterT r h.subdomain)

/-- A control message as dispatched by `Handler.handleMessage`; `register none`
is a register message whose payload fails to unmarshal. -/
inductive InMsg where
  | register (req : Option RegisterRequest)
  | unregister
  | ping
  | dataMsg
  | unknown (t : Str)
deriving DecidableEq, Repr

/-- The reply the handler sends on the control channel for one message
(`HandleMessages` sends an `error` message when `handleMessage` errors). -/
inductive Reply where
  | success (resp : RegisterResponse)
  | successMsg (m : Str)
  | pong
  | silent
  | err (e : Str)
deriving DecidableEq, Repr

/-- `Handler.handleMessage` combined with the error dispatch of
`HandleMessages`: on an error the handler and registry are unchanged and an
Error reply is sent. -/
def handleMessage (h : Handler) (r : Registry) (m : InMsg)
    (b0 b1 b2 b3 : Nat) (uuid : Str) (now : Nat) : Handler × Registry × Reply :=
  match m with
  | .register none =>
      (h, r, .err (("invalid register request").data))
  | .register (some req) =>
      match handleRegister h r req b0 b1 b2 b3 uuid now with
      | .error e => (h, r, .err e)
      | .ok (h', r', resp) => (h', r', .success resp)
  | .unregister =>
      match handleUnregister h r with
      | .error e => (h, r, .err e)
      | .ok (h', r') => (h', r', .successMsg (("Tunnel unregistered successfully").data))
  | .ping => (h, r, .pong)
  | .dataMsg => (h, r, .silent)
  | .unknown t => (h, r, .err ((("unknown message type: ").data) ++ t))

/-- Cleanup on any exit of the `HandleMessages` receive loop: unregister the
active subdomain when one is registered. -/
def teardownCleanup (h : Handler) (r : Registry) : Registry :=
  if h.subdomain = [] then r else unregisterT r h.subdomain

/-! ## Combined front-end proxy routing (`internal/websocket/combined.go`) -/

/-- `CombinedServer.extractSubdomain`: strip any `:port`, then return `""`
unless the host is under `"." + Domain`, else the trimmed remainder. The Go
early-return branch returns `""` on both of its paths. -/
def extractSubdomain (domain host : Str) : Str :=
  let host := stripPort host
  let dotDomain := '.' :: domain
  if endsWith host dotDomain = false ∧ host ≠ domain then
    if host = domain then [] else []
  else
    trimSpace (trimSuffix host dotDomain)

/-- The observable routing outcome of `CombinedServer.handleProxy` before the
connection is hijacked. -/
inductive ProxyRoute where
  | invalidHostname
  | tunnelNotFound (s : Str)
  | forward (t : Tunnel) (s : Str)
deriving DecidableEq, Repr

/-- The pre-hijack part of `CombinedServer.handleProxy`: empty subdomain gives
404 `Invalid hostname`; a registry miss gives 404 `Tunnel not found for
subdomain: ...`; otherwise the request is forwarded to the tunnel. -/
def routeProxy (domain : Str) (r : Registry) (hostHeader : Str) : ProxyRoute :=
  let sub := extractSubdomain domain hostHeader
  if sub = [] then .invalidHostname
  else
    match getT r sub with
    | none => .tunnelNotFound sub
    | some t => .forward t sub

/-- Outcome of `proxy.DialThroughTunnel` in the post-hijack goroutine. -/
inductive DialOutcome where
  | ok
  | fail
deriving DecidableEq, Repr

/-- Outcome of `r.Write(tunnelConn)` (re-serializing the request). -/
inductive WriteOutcome where
  | ok
  | fail
deriving DecidableEq, Repr

/-- Effects of the post-hijack goroutine on the hijacked client connection and
the tunnel-side stream. `clientWrites` are the raw HTTP responses the goroutine
itself writes onto the hijacked byte stream (the spliced data path excluded). -/
structure ForwardEffects where
  clientWrites : List Str
  clientClosed : Bool
  tunnelClosed : Bool
  spliced : Bool
deriving DecidableEq, Repr

/-- The literal 502 response written by the goroutine on dial failure. -/
def badGatewayResponse : Str :=
  ("HTTP/1.1 502 Bad Gateway\r\nContent-Type: text/plain\r\nContent-Length: 15\r\n\r\nBad Gateway\r\n").data

/-- The post-hijack goroutine of `CombinedServer.handleProxy`: on dial failure
write the 502 and close the client; on request-write failure just return (the
deferred closes run); otherwise splice bidirectionally. -/
def forwardToTunnel (dial : DialOutcome) (wr : WriteOutcome) : ForwardEffects :=
  match dial with
  | .fail =>
      { clientWrites := [badGatewayResponse], clientClosed := true,
        tunnelClosed := false, spliced := false }
  | .ok =>
      match wr with
      | .fail =>
          { clientWrites := [], clientClosed := true,
            tunnelClosed := true, spliced := false }
      | .ok =>
          { clientWrites := [], clientClosed := true,
            tunnelClosed := true, spliced := true }

/-! ## Virtual stream (`internal/proxy/virtual_conn.go`) -/

/-- The underlying control-channel transport as seen by a virtual stream:
a byte stream to read, a log of written binary frames, and a count of `Close`
calls received. -/
structure UnderlyingConn where
  readStream : List Nat
  written : List (List Nat)
  closeCalls : Nat
deriving DecidableEq, Repr

/-- A read of at most `cap` bytes from the underlying transport. -/
def undRead (u : UnderlyingConn) (cap : Nat) : List Nat × UnderlyingConn :=
  (u.readStream.take cap, { u with readStream := u.readStream.drop cap })

/-- A write of one binary frame to the underlying transport. -/
def undWrite (u : UnderlyingConn) (p : List Nat) : UnderlyingConn :=
  { u with written := u.written ++ [p] }

/-- `proxy.VirtualConnection`: the closed flag plus the borrowed transport. -/
structure VirtualConnection where
  underlying : UnderlyingConn
  closed : Bool
deriving DecidableEq, Repr

/-- Result of one virtual-stream operation. -/
inductive VCResult where
  | bytes (bs : List Nat)
  | eofErr
  | closedPipeErr
  | ok
deriving DecidableEq, Repr

/-- `VirtualConnection.Read`: EOF once closed, else delegate. -/
def vcRead (v : VirtualConnection) (cap : Nat) : VCResult × VirtualConnection :=
  if v.closed then (.eofErr, v)
  else
    let (bs, u') := undRead v.underlying cap
    (.bytes bs, { v with underlying := u' })

/-- `VirtualConnection.Write`: `ErrClosedPipe` once closed, else delegate. -/
def vcWrite (v : VirtualConnection) (p : List Nat) : VCResult × VirtualConnection :=
  if v.closed then (.closedPipeErr, v)
  else (.ok, { v with underlying := undWrite v.underlying p })

/-- `VirtualConnection.Close`: set the local flag, return nil; intentionally
never touches the underlying connection. -/
def vcClose (v : VirtualConnection) : VCResult × VirtualConnection :=
  if v.closed then (.ok, v) else (.ok, { v with closed := true })

/-- One operation of a client of the virtual stream. -/
inductive VCOp where
  | read (cap : Nat)
  | write (p : List Nat)
  | close
deriving DecidableEq, Repr

/-- State transition of one virtual-stream operation. -/
def vcStep (v : VirtualConnection) (op : VCOp) : VirtualConnection :=
  match op with
  | .read cap => (vcRead v cap).2
  | .write p => (vcWrite v p).2
  | .close => (vcClose v).2

/-- Run an arbitrary interleaving of Read/Write/Close calls. -/
def vcRun (ops : List VCOp) (v : VirtualConnection) : VirtualConnection :=
  ops.foldl vcStep v

/-! ## Control-channel connection: Close (`internal/websocket/connection.go`) -/

/-- The close-relevant state of `websocket.Connection`: whether `closeOnce`
has fired, and how many `Close` calls reached the underlying WebSocket. -/
structure ConnCloseState where
  onceDone : Bool
  undCloseCalls : Nat
deriving DecidableEq, Repr

/-- `Connection.Close`: `closeOnce.Do` runs the underlying close exactly on
the first call (returning its result `e`); later calls leave `err` at nil. -/
def connClose (e : Option Nat) (s : ConnCloseState) : Option Nat × ConnCloseState :=
  if s.onceDone then (none, s)
  else (e, { onceDone := true, undCloseCalls := s.undCloseCalls + 1 })

/-- `n` sequential `Close` calls, collecting every returned error value. -/
def connCloseN (e : Option Nat) : Nat → ConnCloseState → List (Option Nat) × ConnCloseState
  | 0, s => ([], s)
  | n + 1, s =>
    let (res, s') := connClose e s
    let (rs, s'') := connCloseN e n s'
    (res :: rs, s'')

/-! ## Control-channel connection: read side (`internal/websocket/connection.go`) -/

/-- A parsed control message (`websocket.Message` after `json.Unmarshal`);
the payload is kept opaque. -/
structure WireMessage where
  type : Str
  payload : Str
deriving DecidableEq, Repr

/-- One frame arriving on the underlying WebSocket: a binary data frame, a
text frame (`none` when `json.Unmarshal` would fail), or any other type. -/
inductive WSFrame where
  | bin (p : List Nat)
  | txt (m : Option WireMessage)
  | other
deriving DecidableEq, Repr

/-- Read-side state of `websocket.Connection`: the frames still to arrive on
the underlying channel, the `binaryQueue`, and `readBuffer[readOffset:]`. -/
structure ConnReadState where
  channel : List WSFrame
  binaryQueue : List (List Nat)
  readBuffer : List Nat
deriving DecidableEq, Repr

/-- Result of `Connection.ReadMessage`. -/
inductive ReadMsgResult where
  | msg (m : WireMessage)
  | parseErr
  | connErr
deriving DecidableEq, Repr

/-- The loop body of `Connection.ReadMessage`: binary frames are appended to
the queue and the loop continues; other non-text frames are skipped; a text
frame is parsed and returned; an exhausted channel is a read error. -/
def readMsgAux : List WSFrame → List (List Nat) → ReadMsgResult × List WSFrame × List (List Nat)
  | [], q => (.connErr, [], q)
  | .bin p :: rest, q => readMsgAux rest (q ++ [p])
  | .other :: rest, q => readMsgAux rest q
  | .txt none :: rest, q => (.parseErr, rest, q)
  | .txt (some m) :: rest, q => (.msg m, rest, q)

/-- `Connection.ReadMessage` as a state transition (never touches
`readBuffer`). -/
def readMessageC (st : ConnReadState) : ReadMsgResult × ConnReadState :=
  let (res, ch', q') := readMsgAux st.channel st.binaryQueue
  (res, { st with channel := ch', binaryQueue := q' })

/-- Result of the data-plane `Connection.Read`. -/
inductive DataReadResult where
  | bytes (bs : List Nat)
  | eofErr
  | connErr
deriving DecidableEq, Repr

/-- `Connection.Read` with a caller buffer of capacity `cap`: drain the
partial `readBuffer` first, then the FIFO `binaryQueue`, and only when both
are empty pull the next frame from the underlying channel (EOF on a non-binary
frame). -/
def readC (st : ConnReadState) (cap : Nat) : DataReadResult × ConnReadState :=
  if st.readBuffer ≠ [] then
    (.bytes (st.readBuffer.take cap), { st with readBuffer := st.readBuffer.drop cap })
  else
    match st.binaryQueue with
    | q :: qs =>
        (.bytes (q.take cap), { st with binaryQueue := qs, readBuffer := q.drop cap })
    | [] =>
        match st.channel with
        | [] => (.connErr, st)
        | .bin p :: rest =>
            (.bytes (p.take cap), { st with channel := rest, readBuffer := p.drop cap })
        | .txt _ :: rest => (.eofErr, { st with channel := rest, readBuffer := [] })
        | .other :: rest => (.eofErr, { st with channel := rest, readBuffer := [] })

/-- One iteration of the `ReadMessage` loop, the unit protected by the
connection mutex: pull one frame; a binary frame is queued, any other frame
is consumed (a text frame producing the control message returned to the
session handler). -/
def ctlIter (st : ConnReadState) : ConnReadState :=
  match st.channel with
  | [] => st
  | .bin p :: rest => { st with channel := rest, binaryQueue := st.binaryQueue ++ [p] }
  | .txt _ :: rest => { st with channel := rest }
  | .other :: rest => { st with channel := rest }

/-- One step of either plane: a control-loop iteration (one locked frame pull
of `ReadMessage`) or one data-plane `Read` with some buffer capacity. -/
inductive ConnOp where
  | ctl
  | dataRead (cap : Nat)
deriving DecidableEq, Repr

/-- Run an arbitrary interleaving of the control loop and the data-plane
reader, collecting the byte chunks each data-plane `Read` returns. -/
def runConn : List ConnOp → ConnReadState → List (List Nat) × ConnReadState
  | [], st => ([], st)
  | .ctl :: ops, st => runConn ops (ctlIter st)
  | .dataRead cap :: ops, st =>
    let (res, st') := readC st cap
    let (outs, st'') := runConn ops st'
    ((match res with | .bytes bs => bs | _ => []) :: outs, st'')

/-- The payloads of the binary frames of a frame list, in arrival order. -/
def binPayloads : List WSFrame → List (List Nat)
  | [] => []
  | .bin p :: rest => p :: binPayloads rest
  | .txt _ :: rest => binPayloads rest
  | .other :: rest => binPayloads rest

/-- Bytes not yet delivered to the data plane: partial buffer, then queued
frames, then binary frames still on the channel. -/
def leftoverBytes (st : ConnReadState) : List Nat :=
  st.readBuffer ++ st.binaryQueue.flatten ++ (binPayloads st.channel).flatten

/-- Number of frames `ReadMessage` consumes from the channel. -/
def consumedFrames : List WSFrame → Nat
  | [] => 0
  | .bin _ :: rest => consumedFrames rest + 1
  | .other :: rest => consumedFrames rest + 1
  | .txt _ :: _ => 1

/-! ## Helper lemmas -/

theorem lookupT_eq_none_iff (r : Registry) (s : Str) :
    lookupT r s = none ↔ s ∉ r.map Prod.fst := by
  induction r with
  | nil => simp [lookupT]
  | cons p rest ih =>
    obtain ⟨k, t⟩ := p
    by_cases hk : k = s
    · subst hk
      simp only [lookupT, if_pos rfl, List.map_cons, List.mem_cons]
      constructor
      · intro hcontra
        exact Option.noConfusion hcontra
      · intro hns
        exact (hns (Or.inl trivial)).elim
    · simp only [lookupT, if_neg hk, List.map_cons, List.mem_cons]
      rw [ih]
      constructor
      · intro hns hor
        rcases hor with h1 | h2
        · exact hk h1.symm
        · exact hns h2
      · intro hns h2
        exact hns (Or.inr h2)

theorem lookupT_unregisterT_self (r : Registry) (s : Str) :
    lookupT (unregisterT r s) s = none := by
  induction r with
  | nil => rfl
  | cons p rest ih =>
    obtain ⟨k, t⟩ := p
    by_cases hk : k = s
    · simpa [unregisterT, hk] using ih
    · simpa [unregisterT, List.filter, hk, lookupT] using ih

theorem unregisterT_idem (r : Registry) (s : Str) :
    unregisterT (unregisterT r s) s = unregisterT r s := by
  simp [unregisterT, List.filter_filter]

theorem unregisterT_keys_sublist (r : Registry) (s : Str) :
    ((unregisterT r s).map Prod.fst).Sublist (r.map Prod.fst) :=
  (List.filter_sublist r).map Prod.fst

theorem reserved_lengths : ∀ w ∈ reservedList, w.length ≠ 8 := by decide

theorem generate_length (b0 b1 b2 b3 : Nat) : (Generate b0 b1 b2 b3).length = 8 := by
  simp [Generate, hexByte]

theorem generate_not_reserved (b0 b1 b2 b3 : Nat) :
    Generate b0 b1 b2 b3 ∉ reservedList := by
  intro hmem
  exact reserved_lengths _ hmem (generate_length b0 b1 b2 b3)

theorem lowerStr_reserved : ∀ w ∈ reservedList, lowerStr w = w := by decide

theorem validate_ok_not_reserved (s : Str) (h : Validate s = .ok ()) :
    lowerStr s ∉ reservedList := by
  intro hmem
  simp only [Validate] at h
  by_cases h1 : (lowerStr s).length < 1 ∨ (lowerStr s).length > 63
  · rw [if_pos h1] at h
    exact Except.noConfusion h
  · rw [if_neg h1] at h
    by_cases h2 : matchesPattern (lowerStr s) = false
    · rw [if_pos h2] at h
      exact Except.noConfusion h
    · rw [if_neg h2, if_pos hmem] at h
      exact Except.noConfusion h

theorem not_reserved_of_validate_normalize (x : Str)
    (h : Validate (Normalize x) = .ok ()) : Normalize x ∉ reservedList := by
  intro hmem
  exact validate_ok_not_reserved (Normalize x) h
    (by rw [lowerStr_reserved _ hmem]; exact hmem)

theorem vcStep_closeCalls (v : VirtualConnection) (op : VCOp) :
    (vcStep v op).underlying.closeCalls = v.underlying.closeCalls := by
  cases op with
  | read cap =>
    simp only [vcStep, vcRead]
    split
    · rfl
    · simp [undRead]
  | write p =>
    simp only [vcStep, vcWrite]
    split
    · rfl
    · simp [undWrite]
  | close =>
    simp only [vcStep, vcClose]
    split
    · rfl
    · rfl

/-- C4: closing a `VirtualConnection` never closes the underlying
control-channel transport, however many `Close` calls occur and however they
interleave with `Read` and `Write`; every `Close` returns nil, and the
underlying transport's state (and hence its usability for later requests of
the session) is untouched by `Close`. -/
theorem virtual_close_preserves_underlying :
    (∀ (ops : List VCOp) (v : VirtualConnection),
      (vcRun ops v).underlying.closeCalls = v.underlying.closeCalls) ∧
    (∀ v : VirtualConnection, (vcClose v).1 = .ok) ∧
    (∀ v : VirtualConnection, (vcClose v).2.underlying = v.underlying) := by
  refine ⟨?_, ?_, ?_⟩
  · intro ops
    induction ops with
    | nil => intro v; rfl
    | cons op rest ih =>
      intro v
      calc (vcRun (op :: rest) v).underlying.closeCalls
          = (vcRun rest (vcStep v op)).underlying.closeCalls := rfl
        _ = (vcStep v op).underlying.closeCalls := ih (vcStep v op)
        _ = v.underlying.closeCalls := vcStep_closeCalls v op
  · intro v
    simp only [vcClose]
    split
    · rfl
    · rfl
  · intro v
    simp only [vcClose]
    split
    · rfl
    · rfl

/-- C5: registry laws — `register` inserts iff the key is absent and returns
the taken error otherwise; `unregister` is idempotent; after `unregister s`,
`get s` is `none` and a register of a tunnel with subdomain `s` succeeds. -/
theorem registry_laws :
    ∀ (r : Registry) (t : Tunnel) (s : Str),
      (lookupT r t.subdomain = none →
        registerT r t = .ok ((t.subdomain, t) :: r)) ∧
      (∀ t₀, lookupT r t.subdomain = some t₀ →
        registerT r t =
          .error ((("subdomain '").data) ++ t.subdomain ++ (("' is already in use").data))) ∧
      unregisterT (unregisterT r s) s = unregisterT r s ∧
      getT (unregisterT r s) s = none ∧
      (t.subdomain = s →
        registerT (unregisterT r s) t = .ok ((s, t) :: unregisterT r s)) := by
  intro r t s
  refine ⟨?_, ?_, unregisterT_idem r s, lookupT_unregisterT_self r s, ?_⟩
  · intro hnone
    simp [registerT, hnone]
  · intro t₀ hsome
    simp [registerT, hsome]
  · intro hsub
    subst hsub
    simp [registerT, lookupT_unregisterT_self r t.subdomain]

/-- C5 witness: the laws at a concrete registry and tunnel. -/
theorem registry_laws_witness :
    registerT [] { id := ("t0").data, subdomain := ("aaa").data, connId := 0,
                   localAddr := ("localhost:3000").data, remotePort := 3000,
                   createdAt := 0 }
      = .ok [(("aaa").data,
              { id := ("t0").data, subdomain := ("aaa").data, connId := 0,
                localAddr := ("localhost:3000").data, remotePort := 3000,
                createdAt := 0 })] := by
  exact (registry_laws [] _ (("aaa").data)).1 (by decide)

theorem connClose_after_once (e : Option Nat) :
    ∀ (n : Nat) (s : ConnCloseState), s.onceDone = true →
      connCloseN e n s = (List.replicate n none, s) := by
  intro n
  induction n with
  | zero => intro s _; rfl
  | succ m ih =>
    intro s hdone
    simp only [connCloseN, connClose, hdone, if_true]
    rw [ih s hdone]
    rfl

/-- C8: calling `Connection.Close` N ≥ 1 times performs exactly one close of
the underlying WebSocket connection; the first call returns the underlying
result and every later call is a no-op returning nil. -/
theorem connection_close_once (e : Option Nat) (n : Nat) (hn : 1 ≤ n) :
    (connCloseN e n ⟨false, 0⟩).2.undCloseCalls = 1 ∧
    (connCloseN e n ⟨false, 0⟩).1 = e :: List.replicate (n - 1) none := by
  obtain ⟨m, rfl⟩ : ∃ m, n = m + 1 := ⟨n - 1, (Nat.succ_pred_eq_of_pos hn).symm⟩
  have hstep : connClose e ⟨false, 0⟩ = (e, ⟨true, 1⟩) := rfl
  have hrest := connClose_after_once e m ⟨true, 1⟩ rfl
  constructor
  · simp [connCloseN, hstep, hrest]
  · simp [connCloseN, hstep, hrest]

/-- C8 witness: three close calls close the underlying connection once and
return nil from the second call on. -/
theorem connection_close_once_witness :
    (connCloseN (some 7) 3 ⟨false, 0⟩).2.undCloseCalls = 1 ∧
    (connCloseN (some 7) 3 ⟨false, 0⟩).1 = some 7 :: List.replicate 2 none :=
  connection_close_once (some 7) 3 (by decide)

/-- Modelled from the spec: the DNS-label pattern
`^[a-z0-9]([a-z0-9-]{0,61}[a-z0-9])?$` as the spec words it — the string is a
single `[a-z0-9]` character, or starts and ends with `[a-z0-9]` with at most
61 inner characters drawn from `[a-z0-9-]`. Compared against the source's
`matchesPattern`. -/
def dnsLabelSpec (s : Str) : Prop :=
  (∃ c, s = [c] ∧ isLowerAlnum c = true) ∨
  (∃ c mid d, s = c :: mid ++ [d] ∧ isLowerAlnum c = true ∧ isLowerAlnum d = true ∧
    (∀ x ∈ mid, isInnerChar x = true) ∧ mid.length ≤ 61)

theorem innerTail_iff : ∀ l : Str, innerTail l = true ↔
    ∃ mid d, l = mid ++ [d] ∧ (∀ x ∈ mid, isInnerChar x = true) ∧
      isLowerAlnum d = true := by
  intro l
  induction l with
  | nil =>
    simp [innerTail]
  | cons c rest ih =>
    cases rest with
    | nil =>
      simp only [innerTail]
      constructor
      · intro h
        exact ⟨[], c, rfl, fun x hx => absurd hx (List.not_mem_nil x), h⟩
      · rintro ⟨mid, d, heq, hmid, hd⟩
        cases mid with
        | nil =>
          injection heq with h1 h2
          rw [h1]
          exact hd
        | cons mh mt =>
          injection heq with h1 h2
          exact absurd h2 (by simp)
    | cons y ys =>
      rw [show innerTail (c :: y :: ys) = (isInnerChar c && innerTail (y :: ys)) from rfl]
      rw [Bool.and_eq_true, ih]
      constructor
      · rintro ⟨hc, mid, d, heq, hmid, hd⟩
        refine ⟨c :: mid, d, by rw [heq]; rfl, ?_, hd⟩
        intro x hx
        rcases List.mem_cons.mp hx with h1 | h2
        · subst h1
          exact hc
        · exact hmid x h2
      · rintro ⟨mid, d, heq, hmid, hd⟩
        cases mid with
        | nil =>
          simp at heq
        | cons mh mt =>
          injection heq with h1 h2
          subst h1
          refine ⟨hmid c (List.mem_cons_self _ _), mt, d, h2, ?_, hd⟩
          intro x hx
          exact hmid x (List.mem_cons_of_mem _ hx)

theorem matchesPattern_iff_dnsLabelSpec (s : Str) :
    matchesPattern s = true ↔ dnsLabelSpec s := by
  cases s with
  | nil =>
    simp only [matchesPattern, dnsLabelSpec]
    constructor
    · intro h
      exact Bool.noConfusion h
    · rintro (⟨c, heq, -⟩ | ⟨c, mid, d, heq, -⟩) <;> exact absurd heq (by simp)
  | cons c rest =>
    cases rest with
    | nil =>
      simp only [matchesPattern, dnsLabelSpec]
      constructor
      · intro h
        exact Or.inl ⟨c, rfl, h⟩
      · rintro (⟨c', heq, hc'⟩ | ⟨c', mid, d, heq, -⟩)
        · injection heq with h1
          rw [h1]
          exact hc'
        · injection heq with h1 h2
          exact absurd h2 (by simp)
    | cons y ys =>
      rw [show matchesPattern (c :: y :: ys)
            = (isLowerAlnum c && innerTail (y :: ys) && decide ((y :: ys).length ≤ 62))
          from rfl]
      simp only [Bool.and_eq_true, decide_eq_true_eq, innerTail_iff, dnsLabelSpec]
      constructor
      · rintro ⟨⟨hc, mid, d, heq, hmid, hd⟩, hlen⟩
        refine Or.inr ⟨c, mid, d, by rw [heq]; rfl, hc, hd, hmid, ?_⟩
        have : (y :: ys).length = mid.length + 1 := by
          rw [heq]
          simp
        omega
      · rintro (⟨c', heq, -⟩ | ⟨c', mid, d, heq, hc', hd, hmid, hlen⟩)
        · exact absurd heq (by simp)
        · injection heq with h1 h2
          subst h1
          refine ⟨⟨hc', mid, d, h2, hmid, hd⟩, ?_⟩
          have : (y :: ys).length = mid.length + 1 := by
            rw [h2]
            simp
          omega

theorem validate_ok_iff (s : Str) :
    Validate s = .ok () ↔
      (1 ≤ (lowerStr s).length ∧ (lowerStr s).length ≤ 63 ∧
       dnsLabelSpec (lowerStr s) ∧ lowerStr s ∉ reservedList) := by
  simp only [Validate]
  by_cases h1 : (lowerStr s).length < 1 ∨ (lowerStr s).length > 63
  · rw [if_pos h1]
    constructor
    · intro h
      exact Except.noConfusion h
    · rintro ⟨ha, hb, -, -⟩
      rcases h1 with h1 | h1 <;> omega
  · rw [if_neg h1]
    by_cases h2 : matchesPattern (lowerStr s) = false
    · rw [if_pos h2]
      constructor
      · intro h
        exact Except.noConfusion h
      · rintro ⟨-, -, hspec, -⟩
        rw [← matchesPattern_iff_dnsLabelSpec] at hspec
        rw [hspec] at h2
        exact Bool.noConfusion h2
    · rw [if_neg h2]
      by_cases h3 : lowerStr s ∈ reservedList
      · rw [if_pos h3]
        constructor
        · intro h
          exact Except.noConfusion h
        · rintro ⟨-, -, -, hres⟩
          exact absurd h3 hres
      · rw [if_neg h3]
        constructor
        · intro _
          refine ⟨by omega, by omega, ?_, h3⟩
          rw [← matchesPattern_iff_dnsLabelSpec]
          cases hb : matchesPattern (lowerStr s)
          · exact absurd hb h2
          · rfl
        · intro _
          rfl

/-- C7: `Validate s` succeeds exactly when the lowercased `s` has length
1–63, satisfies the DNS-label pattern (starts and ends with `[a-z0-9]`, at
most 61 inner characters which may include `-`), and is not reserved; with
the boundary cases: length 1 and 63 accepted, length 64 rejected, `a`
accepted, `-a` and `a-` rejected, and `AA` normalized to `aa` accepted. -/
theorem validate_characterization :
    (∀ s : Str, Validate s = .ok () ↔
      (1 ≤ (lowerStr s).length ∧ (lowerStr s).length ≤ 63 ∧
       dnsLabelSpec (lowerStr s) ∧ lowerStr s ∉ reservedList)) ∧
    Validate (("a").data) = .ok () ∧
    Validate (List.replicate 63 'a') = .ok () ∧
    Validate (List.replicate 64 'a') ≠ .ok () ∧
    Validate (("-a").data) ≠ .ok () ∧
    Validate (("a-").data) ≠ .ok () ∧
    Normalize (("AA").data) = ("aa").data ∧
    Validate (Normalize (("AA").data)) = .ok () :=
  ⟨validate_ok_iff, by decide, by decide, by decide, by decide, by decide,
   by decide, by decide⟩

/-! ## `handleRegister` path lemmas -/

theorem isSubdomainAvailable_not_false {r : Registry} {s : Str}
    (h : ¬ isSubdomainAvailable r s = false) : lookupT r s = none := by
  cases hl : lookupT r s with
  | none => rfl
  | some t =>
    exact absurd (by simp [isSubdomainAvailable, hl]) h

theorem handleRegister_custom_ok (h : Handler) (r : Registry) (req : RegisterRequest)
    (b0 b1 b2 b3 : Nat) (uuid : Str) (now : Nat)
    (hne : req.subdomain ≠ [])
    (hval : Validate (Normalize req.subdomain) = .ok ())
    (hnone : lookupT r (Normalize req.subdomain) = none) :
    handleRegister h r req b0 b1 b2 b3 uuid now
      = .ok ({ h with tunnelID := uuid, subdomain := Normalize req.subdomain },
             (Normalize req.subdomain,
              mkTunnel h req (Normalize req.subdomain) uuid now) :: r,
             mkResponse h req (Normalize req.subdomain) uuid) := by
  have havail : isSubdomainAvailable r (Normalize req.subdomain) = true := by
    simp [isSubdomainAvailable, hnone]
  simp only [handleRegister, if_pos hne, hval, havail]
  simp [registerT, mkTunnel, hnone]

theorem handleRegister_custom_taken (h : Handler) (r : Registry) (req : RegisterRequest)
    (b0 b1 b2 b3 : Nat) (uuid : Str) (now : Nat)
    (hne : req.subdomain ≠ [])
    (hval : Validate (Normalize req.subdomain) = .ok ())
    (htaken : isSubdomainAvailable r (Normalize req.subdomain) = false) :
    handleRegister h r req b0 b1 b2 b3 uuid now
      = .error ((("subdomain '").data) ++ Normalize req.subdomain
                 ++ (("' is already in use").data)) := by
  simp only [handleRegister, if_pos hne, hval, htaken]
  rfl

theorem handleRegister_generated_ok (h : Handler) (r : Registry) (req : RegisterRequest)
    (b0 b1 b2 b3 : Nat) (uuid : Str) (now : Nat)
    (hempty : req.subdomain = [])
    (hnone : lookupT r (Generate b0 b1 b2 b3) = none) :
    handleRegister h r req b0 b1 b2 b3 uuid now
      = .ok ({ h with tunnelID := uuid, subdomain := Generate b0 b1 b2 b3 },
             (Generate b0 b1 b2 b3,
              mkTunnel h req (Generate b0 b1 b2 b3) uuid now) :: r,
             mkResponse h req (Generate b0 b1 b2 b3) uuid) := by
  simp only [handleRegister, hempty]
  simp [registerT, mkTunnel, hnone]

theorem handleRegister_invalid (h : Handler) (r : Registry) (req : RegisterRequest)
    (b0 b1 b2 b3 : Nat) (uuid : Str) (now : Nat) (e : Str)
    (hne : req.subdomain ≠ [])
    (hval : Validate (Normalize req.subdomain) = .error e) :
    handleRegister h r req b0 b1 b2 b3 uuid now
      = .error ((("invalid subdomain: ").data) ++ e) := by
  simp only [handleRegister, if_pos hne, hval]

theorem handleRegister_generated_taken (h : Handler) (r : Registry) (req : RegisterRequest)
    (b0 b1 b2 b3 : Nat) (uuid : Str) (now : Nat) (t : Tunnel)
    (hempty : req.subdomain = [])
    (hsome : lookupT r (Generate b0 b1 b2 b3) = some t) :
    handleRegister h r req b0 b1 b2 b3 uuid now
      = .error ((("failed to register tunnel: ").data)
                 ++ ((("subdomain '").data) ++ Generate b0 b1 b2 b3
                     ++ (("' is already in use").data))) := by
  simp only [handleRegister, hempty]
  simp [registerT, mkTunnel, hsome]

theorem handleRegister_ok_inv (h : Handler) (r : Registry) (req : RegisterRequest)
    (b0 b1 b2 b3 : Nat) (uuid : Str) (now : Nat)
    (h' : Handler) (r' : Registry) (resp : RegisterResponse)
    (heq : handleRegister h r req b0 b1 b2 b3 uuid now = .ok (h', r', resp)) :
    ∃ sel, lookupT r sel = none ∧ sel ∉ reservedList ∧
      h' = { h with tunnelID := uuid, subdomain := sel } ∧
      r' = (sel, mkTunnel h req sel uuid now) :: r ∧
      resp = mkResponse h req sel uuid := by
  by_cases hne : req.subdomain ≠ []
  · cases hval : Validate (Normalize req.subdomain) with
    | error e =>
      rw [handleRegister_invalid h r req b0 b1 b2 b3 uuid now e hne hval] at heq
      exact Except.noConfusion heq
    | ok u =>
      cases u
      by_cases htaken : isSubdomainAvailable r (Normalize req.subdomain) = false
      · rw [handleRegister_custom_taken h r req b0 b1 b2 b3 uuid now hne hval htaken] at heq
        exact Except.noConfusion heq
      · have hnone := isSubdomainAvailable_not_false htaken
        rw [handleRegister_custom_ok h r req b0 b1 b2 b3 uuid now hne hval hnone] at heq
        have e := Except.ok.inj heq
        refine ⟨Normalize req.subdomain, hnone,
                not_reserved_of_validate_normalize req.subdomain hval, ?_, ?_, ?_⟩
        · exact (congrArg Prod.fst e).symm
        · exact (congrArg (fun p => p.2.1) e).symm
        · exact (congrArg (fun p => p.2.2) e).symm
  · push_neg at hne
    cases hlook : lookupT r (Generate b0 b1 b2 b3) with
    | some t =>
      rw [handleRegister_generated_taken h r req b0 b1 b2 b3 uuid now t hne hlook] at heq
      exact Except.noConfusion heq
    | none =>
      rw [handleRegister_generated_ok h r req b0 b1 b2 b3 uuid now hne hlook] at heq
      have e := Except.ok.inj heq
      refine ⟨Generate b0 b1 b2 b3, hlook, generate_not_reserved b0 b1 b2 b3, ?_, ?_, ?_⟩
      · exact (congrArg Prod.fst e).symm
      · exact (congrArg (fun p => p.2.1) e).symm
      · exact (congrArg (fun p => p.2.2) e).symm

/-! ## C1: a second Register on a registered channel -/

/-- A live tunnel for the subdomain `aaa`, used as a concrete test state. -/
def cxTunnel : Tunnel :=
  { id := ("t0").data, subdomain := ("aaa").data, connId := 0,
    localAddr := ("localhost:3000").data, remotePort := 3000, createdAt := 0 }

/-- A handler in the Registered state for subdomain `aaa`. -/
def cxHandler : Handler :=
  { domain := ("example.test").data, connId := 0, tunnelID := ("t0").data,
    subdomain := ("aaa").data }

/-- Registry holding the session of `cxHandler`. -/
def cxRegistry : Registry := [(("aaa").data, cxTunnel)]

/-- A further register request, for the available subdomain `bbb`. -/
def cxRequest : RegisterRequest :=
  { subdomain := ("bbb").data, localAddr := ("localhost:3000").data, localPort := 3000 }

/-- C1 counterexample: a handler already in the Registered state (subdomain
`aaa`) that receives a further Register for the available subdomain `bbb`
replies Success (not Error), a new registry entry is created (count becomes
2), and the handler's registered subdomain changes to `bbb` — while the old
`aaa` entry stays behind. -/
theorem second_register_accepted :
    (handleMessage cxHandler cxRegistry (.register (some cxRequest))
        0 0 0 0 (("u1").data) 5).2.2
      = .success { tunnelID := ("u1").data, subdomain := ("bbb").data,
                   fullDomain := ("bbb.example.test").data,
                   localAddr := ("localhost:3000").data,
                   message := ("Tunnel created: https://bbb.example.test -> localhost:3000").data } ∧
    (handleMessage cxHandler cxRegistry (.register (some cxRequest))
        0 0 0 0 (("u1").data) 5).1.subdomain = ("bbb").data ∧
    countT (handleMessage cxHandler cxRegistry (.register (some cxRequest))
        0 0 0 0 (("u1").data) 5).2.1 = 2 ∧
    getT (handleMessage cxHandler cxRegistry (.register (some cxRequest))
        0 0 0 0 (("u1").data) 5).2.1 (("aaa").data) = some cxTunnel := by
  refine ⟨?_, ?_, ?_, ?_⟩ <;> decide

/-- C1 amended: a Register received in the Registered state is processed
exactly as from Handshaking — a request for an unavailable subdomain gets the
`already in use` Error with no state change, but a request for a valid,
available subdomain succeeds: a new registry entry is inserted, the handler's
registered subdomain is replaced, and the previously registered entry remains
in the registry. -/
theorem second_register_behavior :
    ∀ (h : Handler) (r : Registry) (req : RegisterRequest) (b0 b1 b2 b3 : Nat)
      (uuid : Str) (now : Nat),
      h.subdomain ≠ [] →
      (req.subdomain ≠ [] → Validate (Normalize req.subdomain) = .ok () →
        isSubdomainAvailable r (Normalize req.subdomain) = false →
        handleMessage h r (.register (some req)) b0 b1 b2 b3 uuid now
          = (h, r, .err ((("subdomain '").data) ++ Normalize req.subdomain
                          ++ (("' is already in use").data)))) ∧
      (req.subdomain ≠ [] → Validate (Normalize req.subdomain) = .ok () →
        lookupT r (Normalize req.subdomain) = none →
        handleMessage h r (.register (some req)) b0 b1 b2 b3 uuid now
          = ({ h with tunnelID := uuid, subdomain := Normalize req.subdomain },
             (Normalize req.subdomain,
              mkTunnel h req (Normalize req.subdomain) uuid now) :: r,
             .success (mkResponse h req (Normalize req.subdomain) uuid)) ∧
        (h.subdomain ≠ Normalize req.subdomain →
          getT ((Normalize req.subdomain,
                 mkTunnel h req (Normalize req.subdomain) uuid now) :: r) h.subdomain
            = getT r h.subdomain)) := by
  intro h r req b0 b1 b2 b3 uuid now _hreg
  constructor
  · intro hne hval htaken
    simp only [handleMessage,
      handleRegister_custom_taken h r req b0 b1 b2 b3 uuid now hne hval htaken]
  · intro hne hval hnone
    constructor
    · simp only [handleMessage,
        handleRegister_custom_ok h r req b0 b1 b2 b3 uuid now hne hval hnone]
    · intro hdiff
      simp only [getT, lookupT]
      rw [if_neg (show ¬ Normalize req.subdomain = h.subdomain from fun hc => hdiff hc.symm)]

/-- C1 witness for the amended theorem: the registered handler `cxHandler`
gets the `already in use` Error when re-registering its own subdomain, and
Success when registering the fresh `bbb`. -/
theorem second_register_behavior_witness :
    handleMessage cxHandler cxRegistry
        (.register (some { subdomain := ("aaa").data,
                           localAddr := ("localhost:3000").data, localPort := 3000 }))
        0 0 0 0 (("u1").data) 5
      = (cxHandler, cxRegistry, .err (("subdomain 'aaa' is already in use").data)) ∧
    getT ((("bbb").data, mkTunnel cxHandler cxRequest (("bbb").data) (("u1").data) 5)
           :: cxRegistry) (("aaa").data)
      = getT cxRegistry (("aaa").data) := by
  constructor
  · have htaken1 := (second_register_behavior cxHandler cxRegistry
      { subdomain := ("aaa").data, localAddr := ("localhost:3000").data, localPort := 3000 }
      0 0 0 0 (("u1").data) 5 (by decide)).1 (by decide) (by decide) (by decide)
    exact htaken1.trans (by decide)
  · exact ((second_register_behavior cxHandler cxRegistry cxRequest
      0 0 0 0 (("u1").data) 5 (by decide)).2 (by decide) (by decide) (by decide)).2
      (by decide)

/-! ## C2: 502 on request-write failure -/

/-- C2 counterexample: when the request write onto the tunnel-side stream
fails (after a successful dial), the post-hijack goroutine writes nothing on
the hijacked byte stream — in particular no 502 Bad Gateway — and just closes
both ends. -/
theorem write_failure_emits_no_502 :
    (forwardToTunnel .ok .fail).clientWrites = [] ∧
    badGatewayResponse ∉ (forwardToTunnel .ok .fail).clientWrites ∧
    (forwardToTunnel .ok .fail).clientClosed = true ∧
    (forwardToTunnel .ok .fail).spliced = false := by
  refine ⟨rfl, ?_, rfl, rfl⟩
  intro hmem
  simp [forwardToTunnel] at hmem

/-- C2 amended: the 502 Bad Gateway is written on the hijacked byte stream
when obtaining the tunnel-side stream (`DialThroughTunnel`) fails; when the
request write fails after a successful dial, the goroutine aborts silently —
the hijacked stream is closed with no response written — and only when both
dial and write succeed does the bidirectional splice run. -/
theorem forward_error_mapping :
    (∀ wr : WriteOutcome, forwardToTunnel .fail wr =
      { clientWrites := [badGatewayResponse], clientClosed := true,
        tunnelClosed := false, spliced := false }) ∧
    forwardToTunnel .ok .fail =
      { clientWrites := [], clientClosed := true, tunnelClosed := true,
        spliced := false } ∧
    forwardToTunnel .ok .ok =
      { clientWrites := [], clientClosed := true, tunnelClosed := true,
        spliced := true } := by
  refine ⟨?_, rfl, rfl⟩
  intro wr
  cases wr <;> rfl

/-! ## C3: hostname extraction and proxy routing -/

theorem endsWith_iff (s suff : Str) : endsWith s suff = true ↔ suff <:+ s := by
  simp [endsWith]

theorem endsWith_cons_self_false (domain : Str) :
    endsWith domain ('.' :: domain) = false := by
  simp only [endsWith, decide_eq_false_iff_not]
  intro hsuf
  have hlen := List.IsSuffix.length_le hsuf
  simp at hlen

theorem stripPort_no_colon (host : Str) (h : ':' ∉ host) : stripPort host = host := by
  induction host with
  | nil => rfl
  | cons c rest ih =>
    have hc : c ≠ ':' := fun hc => h (hc ▸ List.mem_cons_self c rest)
    have hrest : ':' ∉ rest := fun hm => h (List.mem_cons_of_mem c hm)
    simp only [stripPort, List.takeWhile_cons]
    rw [if_pos (by simpa using hc)]
    simpa [stripPort] using ih hrest

theorem stripPort_strips (host rest : Str) (h : ':' ∉ host) :
    stripPort (host ++ ':' :: rest) = host := by
  induction host with
  | nil => simp [stripPort]
  | cons c tl ih =>
    have hc : c ≠ ':' := fun hc => h (hc ▸ List.mem_cons_self c tl)
    have htl : ':' ∉ tl := fun hm => h (List.mem_cons_of_mem c hm)
    simp only [stripPort, List.cons_append, List.takeWhile_cons]
    rw [if_pos (by simpa using hc)]
    simpa [stripPort] using ih htl

theorem trimSuffix_append (a b : Str) : trimSuffix (a ++ b) b = a := by
  have hsuf : endsWith (a ++ b) b = true := by
    simp [endsWith]
  simp only [trimSuffix, hsuf, if_true, List.length_append]
  rw [show a.length + b.length - b.length = a.length by omega]
  exact List.take_left a b

/-- C3 amended: per `extractSubdomain`, the `:port` suffix is stripped and a
host that neither ends with `"." + Domain` nor equals the Domain yields `""`
(hence 404 `Invalid hostname`); but a host equal to the base Domain exactly is
returned whole — the proxy then looks up the full Domain in the registry and
answers 404 `Tunnel not found`, not `Invalid hostname`. For a host under the
domain, the registry key is the host with the suffix removed and surrounding
whitespace trimmed. -/
theorem extractSubdomain_routing :
    ∀ (domain host port sub : Str) (r : Registry),
      (endsWith (stripPort host) ('.' :: domain) = false → stripPort host ≠ domain →
        extractSubdomain domain host = []) ∧
      (':' ∉ domain → trimSpace domain = domain →
        extractSubdomain domain domain = domain) ∧
      (':' ∉ host →
        extractSubdomain domain (host ++ ':' :: port) = extractSubdomain domain host) ∧
      (':' ∉ host → ':' ∉ domain →
        extractSubdomain domain (host ++ '.' :: domain) = trimSpace host) ∧
      (extractSubdomain domain host = [] →
        routeProxy domain r host = .invalidHostname) ∧
      (extractSubdomain domain host = sub → sub ≠ [] → getT r sub = none →
        routeProxy domain r host = .tunnelNotFound sub) := by
  intro domain host port sub r
  refine ⟨?_, ?_, ?_, ?_, ?_, ?_⟩
  · intro hsuf hne
    simp only [extractSubdomain]
    rw [if_pos ⟨hsuf, hne⟩]
    split <;> rfl
  · intro hcolon htrim
    simp only [extractSubdomain, stripPort_no_colon domain hcolon,
      endsWith_cons_self_false domain]
    rw [if_neg (by simp)]
    simp only [trimSuffix, endsWith_cons_self_false domain]
    rw [if_neg (by simp)]
    exact htrim
  · intro hcolon
    simp only [extractSubdomain, stripPort_strips host port hcolon,
      stripPort_no_colon host hcolon]
  · intro hhost hdom
    have hnocolon : ':' ∉ host ++ '.' :: domain := by
      intro hmem
      rcases List.mem_append.mp hmem with hm | hm
      · exact hhost hm
      · rcases List.mem_cons.mp hm with hm1 | hm2
        · exact absurd hm1 (by decide)
        · exact hdom hm2
    have hsuf : endsWith (host ++ '.' :: domain) ('.' :: domain) = true := by
      simp [endsWith]
    simp only [extractSubdomain, stripPort_no_colon _ hnocolon, hsuf]
    rw [if_neg (by simp)]
    rw [trimSuffix_append host ('.' :: domain)]
  · intro hempty
    simp [routeProxy, hempty]
  · intro hsub hne hget
    simp only [routeProxy, hsub]
    rw [if_neg hne, hget]

/-- C3 witness for the amended theorem: concrete routing outcomes under the
domain `example.test`. -/
theorem extractSubdomain_routing_witness :
    extractSubdomain (("example.test").data) (("example.test").data)
      = ("example.test").data ∧
    routeProxy (("example.test").data) [] (("myapp.example.test").data)
      = .tunnelNotFound (("myapp").data) ∧
    extractSubdomain (("example.test").data) (("other.net").data) = [] ∧
    routeProxy (("example.test").data) [] (("other.net").data) = .invalidHostname := by
  refine ⟨?_, ?_, ?_, ?_⟩
  · exact (extractSubdomain_routing (("example.test").data) (("example.test").data)
      [] [] []).2.1 (by decide) (by decide)
  · exact (extractSubdomain_routing (("example.test").data) (("myapp.example.test").data)
      [] (("myapp").data) []).2.2.2.2.2 (by decide) (by decide) (by decide)
  · exact (extractSubdomain_routing (("example.test").data) (("other.net").data)
      [] [] []).1 (by decide) (by decide)
  · exact (extractSubdomain_routing (("example.test").data) (("other.net").data)
      [] [] []).2.2.2.2.1 (by decide)

/-- C3 counterexample: a request whose Host equals the base Domain exactly is
NOT answered with 404 `Invalid hostname`: `extractSubdomain` returns the whole
domain, so the proxy performs a registry lookup for `example.test` and answers
404 `Tunnel not found for subdomain: example.test`. -/
theorem base_domain_not_invalid_hostname :
    extractSubdomain (("example.test").data) (("example.test").data)
      = ("example.test").data ∧
    routeProxy (("example.test").data) [] (("example.test").data)
      = .tunnelNotFound (("example.test").data) ∧
    routeProxy (("example.test").data) [] (("example.test").data)
      ≠ .invalidHostname := by
  refine ⟨by decide, by decide, by decide⟩

/-! ## C10: defaulted local address -/

/-- C10: when the register request's `local_addr` is empty, the registered
tunnel's local address is `localhost:<local_port>` and exactly that value
appears in the Success response payload. -/
theorem register_default_local_addr :
    ∀ (h : Handler) (r : Registry) (req : RegisterRequest) (b0 b1 b2 b3 : Nat)
      (uuid : Str) (now : Nat) (h' : Handler) (r' : Registry) (resp : RegisterResponse),
      req.localAddr = [] →
      handleRegister h r req b0 b1 b2 b3 uuid now = .ok (h', r', resp) →
      resp.localAddr = (("localhost:").data) ++ (toString req.localPort).data ∧
      getT r' resp.subdomain
        = some { id := uuid, subdomain := resp.subdomain, connId := h.connId,
                 localAddr := (("localhost:").data) ++ (toString req.localPort).data,
                 remotePort := req.localPort, createdAt := now } := by
  intro h r req b0 b1 b2 b3 uuid now h' r' resp hempty heq
  obtain ⟨sel, hnone, hres, hh, hr, hresp⟩ :=
    handleRegister_ok_inv h r req b0 b1 b2 b3 uuid now h' r' resp heq
  have hla : defaultedLocalAddr req
      = (("localhost:").data) ++ (toString req.localPort).data := by
    simp [defaultedLocalAddr, hempty]
  subst hr hresp
  constructor
  · simp [mkResponse, hla]
  · simp [mkResponse, getT, lookupT, mkTunnel, hla]

/-- Handler and request used in concrete witnesses (fresh channel, empty
`local_addr`, random-subdomain path). -/
def wHandler : Handler :=
  { domain := ("example.test").data, connId := 0, tunnelID := [], subdomain := [] }

/-- Request whose `local_addr` is empty. -/
def wRequest : RegisterRequest :=
  { subdomain := [], localAddr := [], localPort := 3000 }

/-- C10 witness: a concrete registration with empty `local_addr` defaults to
`localhost:3000` in the response payload and in the stored tunnel. -/
theorem register_default_local_addr_witness :
    (mkResponse wHandler wRequest (Generate 1 2 3 4) (("u1").data)).localAddr
      = (("localhost:").data) ++ (toString wRequest.localPort).data ∧
    getT ((Generate 1 2 3 4,
           mkTunnel wHandler wRequest (Generate 1 2 3 4) (("u1").data) 0) :: [])
        (mkResponse wHandler wRequest (Generate 1 2 3 4) (("u1").data)).subdomain
      = some { id := ("u1").data,
               subdomain := (mkResponse wHandler wRequest (Generate 1 2 3 4)
                              (("u1").data)).subdomain,
               connId := wHandler.connId,
               localAddr := (("localhost:").data) ++ (toString wRequest.localPort).data,
               remotePort := wRequest.localPort, createdAt := 0 } :=
  register_default_local_addr wHandler [] wRequest 1 2 3 4 (("u1").data) 0 _ _ _ rfl
    (handleRegister_generated_ok wHandler [] wRequest 1 2 3 4 (("u1").data) 0 rfl rfl)

/-! ## C6: reachable registry invariant -/

/-- Registry states reachable through the session handler's operations:
successful `handleRegister` runs, `handleUnregister`'s registry effect, and
the teardown cleanup (both of which are `unregisterT`). -/
inductive RegReach : Registry → Prop where
  | base : RegReach []
  | register (r : Registry) (h : Handler) (req : RegisterRequest) (b0 b1 b2 b3 : Nat)
      (uuid : Str) (now : Nat) (h' : Handler) (r' : Registry) (resp : RegisterResponse) :
      RegReach r → handleRegister h r req b0 b1 b2 b3 uuid now = .ok (h', r', resp) →
      RegReach r'
  | unregister (r : Registry) (s : Str) : RegReach r → RegReach (unregisterT r s)

/-- C6: in every registry state reachable through the handler's operations,
keys are pairwise distinct (at most one session per subdomain) and no
reserved subdomain is ever a key; in particular a generated 8-hex-character
subdomain is never reserved. -/
theorem registry_reachable_invariant :
    (∀ r : Registry, RegReach r →
      ((r.map Prod.fst).Nodup ∧ ∀ k ∈ r.map Prod.fst, k ∉ reservedList)) ∧
    (∀ b0 b1 b2 b3 : Nat, Generate b0 b1 b2 b3 ∉ reservedList) := by
  constructor
  · intro r hreach
    induction hreach with
    | base =>
      exact ⟨List.nodup_nil, by intro k hk; cases hk⟩
    | register r h req b0 b1 b2 b3 uuid now h' r' resp hre heq ih =>
      obtain ⟨sel, hnone, hres, hh, hr, hresp⟩ :=
        handleRegister_ok_inv h r req b0 b1 b2 b3 uuid now h' r' resp heq
      subst hr
      refine ⟨?_, ?_⟩
      · simp only [List.map_cons]
        exact List.nodup_cons.mpr ⟨(lookupT_eq_none_iff r sel).mp hnone, ih.1⟩
      · intro k hk
        simp only [List.map_cons, List.mem_cons] at hk
        rcases hk with hk1 | hk2
        · exact hk1 ▸ hres
        · exact ih.2 k hk2
    | unregister r s hre ih =>
      refine ⟨?_, ?_⟩
      · exact List.Nodup.sublist (unregisterT_keys_sublist r s) ih.1
      · intro k hk
        exact ih.2 k ((unregisterT_keys_sublist r s).subset hk)
  · exact fun b0 b1 b2 b3 => generate_not_reserved b0 b1 b2 b3

/-- C6 witness: the invariant holds at the registry reached by one concrete
successful registration, and the concretely generated subdomain `01020304`
is not reserved. -/
theorem registry_reachable_invariant_witness :
    ((((Generate 1 2 3 4,
        mkTunnel wHandler wRequest (Generate 1 2 3 4) (("u1").data) 0) :: [])
       |>.map Prod.fst).Nodup ∧
      ∀ k ∈ (((Generate 1 2 3 4,
               mkTunnel wHandler wRequest (Generate 1 2 3 4) (("u1").data) 0) :: [])
              |>.map Prod.fst), k ∉ reservedList) ∧
    Generate 1 2 3 4 ∉ reservedList := by
  have hreach : RegReach ((Generate 1 2 3 4,
      mkTunnel wHandler wRequest (Generate 1 2 3 4) (("u1").data) 0) :: []) :=
    RegReach.register [] wHandler wRequest 1 2 3 4 (("u1").data) 0 _ _ _ RegReach.base
      (handleRegister_generated_ok wHandler [] wRequest 1 2 3 4 (("u1").data) 0 rfl rfl)
  exact ⟨registry_reachable_invariant.1 _ hreach,
         registry_reachable_invariant.2 1 2 3 4⟩

/-! ## C9: FIFO delivery of binary frames -/

theorem ctlIter_leftover (st : ConnReadState) :
    leftoverBytes (ctlIter st) = leftoverBytes st := by
  cases hch : st.channel with
  | nil => simp [ctlIter, hch]
  | cons f rest =>
    cases f with
    | bin p =>
      simp [ctlIter, hch, leftoverBytes, binPayloads, List.flatten_append,
        List.flatten_cons, List.append_assoc]
    | txt m => simp [ctlIter, hch, leftoverBytes, binPayloads]
    | other => simp [ctlIter, hch, leftoverBytes, binPayloads]

theorem take_drop_append (l x : List Nat) (cap : Nat) :
    l.take cap ++ (l.drop cap ++ x) = l ++ x := by
  rw [← List.append_assoc, List.take_append_drop]

theorem readC_leftover (st : ConnReadState) (cap : Nat) :
    (match (readC st cap).1 with | .bytes bs => bs | _ => ([] : List Nat))
      ++ leftoverBytes (readC st cap).2 = leftoverBytes st := by
  by_cases hb : st.readBuffer ≠ []
  · simp only [readC, if_pos hb, leftoverBytes, List.append_assoc]
    rw [take_drop_append]
  · push_neg at hb
    cases hq : st.binaryQueue with
    | cons q qs =>
      simp only [readC, hb, ne_eq, not_true_eq_false, if_false, hq, leftoverBytes,
        List.flatten_cons, List.append_assoc, List.nil_append]
      rw [take_drop_append]
    | nil =>
      cases hch : st.channel with
      | nil => simp [readC, hb, hq, hch, leftoverBytes]
      | cons f rest =>
        cases f with
        | bin p =>
          simp only [readC, hb, ne_eq, not_true_eq_false, if_false, hq, hch,
            leftoverBytes, binPayloads, List.flatten_cons, List.flatten_nil,
            List.append_nil, List.nil_append, List.append_assoc]
          rw [take_drop_append]
        | txt m => simp [readC, hb, hq, hch, leftoverBytes, binPayloads]
        | other => simp [readC, hb, hq, hch, leftoverBytes, binPayloads]

theorem runConn_leftover (ops : List ConnOp) : ∀ st : ConnReadState,
    (runConn ops st).1.flatten ++ leftoverBytes (runConn ops st).2
      = leftoverBytes st := by
  induction ops with
  | nil => intro st; simp [runConn]
  | cons op rest ih =>
    intro st
    cases op with
    | ctl =>
      simp only [runConn]
      rw [ih (ctlIter st), ctlIter_leftover]
    | dataRead cap =>
      simp only [runConn, List.flatten_cons, List.append_assoc]
      rw [ih ((readC st cap).2), readC_leftover]

theorem readMsgAux_queue_channel : ∀ (ch : List WSFrame) (q : List (List Nat)),
    (readMsgAux ch q).2.2 = q ++ binPayloads (ch.take (consumedFrames ch)) ∧
    (readMsgAux ch q).2.1 = ch.drop (consumedFrames ch) := by
  intro ch
  induction ch with
  | nil => intro q; simp [readMsgAux, consumedFrames, binPayloads]
  | cons f rest ih =>
    intro q
    cases f with
    | bin p =>
      have h := ih (q ++ [p])
      constructor
      · rw [show readMsgAux (WSFrame.bin p :: rest) q = readMsgAux rest (q ++ [p]) from rfl,
          h.1]
        simp [consumedFrames, binPayloads, List.append_assoc]
      · rw [show readMsgAux (WSFrame.bin p :: rest) q = readMsgAux rest (q ++ [p]) from rfl,
          h.2]
        simp [consumedFrames]
    | other =>
      have h := ih q
      constructor
      · rw [show readMsgAux (WSFrame.other :: rest) q = readMsgAux rest q from rfl, h.1]
        simp [consumedFrames, binPayloads]
      · rw [show readMsgAux (WSFrame.other :: rest) q = readMsgAux rest q from rfl, h.2]
        simp [consumedFrames]
    | txt m =>
      cases m with
      | none => simp [readMsgAux, consumedFrames, binPayloads]
      | some w => simp [readMsgAux, consumedFrames, binPayloads]

theorem readMsgAux_msg_from_txt : ∀ (ch : List WSFrame) (q : List (List Nat))
    (m : WireMessage), (readMsgAux ch q).1 = .msg m → WSFrame.txt (some m) ∈ ch := by
  intro ch
  induction ch with
  | nil =>
    intro q m hres
    exact absurd hres (by simp [readMsgAux])
  | cons f rest ih =>
    intro q m hres
    cases f with
    | bin p =>
      exact List.mem_cons_of_mem _ (ih (q ++ [p]) m hres)
    | other =>
      exact List.mem_cons_of_mem _ (ih q m hres)
    | txt mo =>
      cases mo with
      | none => exact absurd hres (by simp [readMsgAux])
      | some w =>
        have hw : w = m := by
          have : ReadMsgResult.msg w = .msg m := hres
          injection this
        exact hw ▸ List.mem_cons_self _ _

/-- C9: the control-plane reader enqueues every binary frame into the FIFO
queue and returns only parsed text messages; the data-plane `Read` drains the
partially consumed buffer first, then the queued frames in FIFO order, and
pulls from the underlying channel only when buffer and queue are both empty —
so under every interleaving of the two planes, the bytes delivered to the
data-plane reader form a prefix of the binary-frame payloads in arrival
order. -/
theorem conn_read_fifo :
    (∀ (ops : List ConnOp) (fs : List WSFrame),
      (runConn ops ⟨fs, [], []⟩).1.flatten <+: (binPayloads fs).flatten) ∧
    (∀ (ch : List WSFrame) (q : List (List Nat)),
      (readMsgAux ch q).2.2 = q ++ binPayloads (ch.take (consumedFrames ch)) ∧
      (readMsgAux ch q).2.1 = ch.drop (consumedFrames ch)) ∧
    (∀ (ch : List WSFrame) (q : List (List Nat)) (m : WireMessage),
      (readMsgAux ch q).1 = .msg m → WSFrame.txt (some m) ∈ ch) ∧
    (∀ (ch : List WSFrame) (q : List (List Nat)) (b : Nat) (bs : List Nat) (cap : Nat),
      readC ⟨ch, q, b :: bs⟩ cap
        = (.bytes ((b :: bs).take cap), ⟨ch, q, (b :: bs).drop cap⟩)) ∧
    (∀ (ch : List WSFrame) (q : List Nat) (qs : List (List Nat)) (cap : Nat),
      readC ⟨ch, q :: qs, []⟩ cap = (.bytes (q.take cap), ⟨ch, qs, q.drop cap⟩)) ∧
    (∀ (ch : List WSFrame) (p : List Nat) (cap : Nat),
      readC ⟨WSFrame.bin p :: ch, [], []⟩ cap
        = (.bytes (p.take cap), ⟨ch, [], p.drop cap⟩)) := by
  refine ⟨?_, readMsgAux_queue_channel, readMsgAux_msg_from_txt, ?_, ?_, ?_⟩
  · intro ops fs
    refine ⟨leftoverBytes (runConn ops ⟨fs, [], []⟩).2, ?_⟩
    rw [runConn_leftover]
    simp [leftoverBytes]
  · intro ch q b bs cap
    simp [readC]
  · intro ch q qs cap
    simp [readC]
  · intro ch p cap
    simp [readC]

/-- C9 witness: a concrete interleaving — two control-loop iterations
queueing the first binary frame and consuming a text frame, then two
data-plane reads — delivers the bytes as a prefix of the binary payloads in
arrival order; and the control reader returns the parsed text message of a
text frame that it finds after a binary frame. -/
theorem conn_read_fifo_witness :
    (runConn [ConnOp.ctl, ConnOp.ctl, ConnOp.dataRead 1, ConnOp.dataRead 5]
        ⟨[WSFrame.bin [1, 2], WSFrame.txt (some ⟨("ping").data, []⟩),
          WSFrame.bin [3]], [], []⟩).1.flatten
      <+: (binPayloads [WSFrame.bin [1, 2], WSFrame.txt (some ⟨("ping").data, []⟩),
          WSFrame.bin [3]]).flatten ∧
    WSFrame.txt (some ⟨("ping").data, []⟩)
      ∈ [WSFrame.bin [1, 2], WSFrame.txt (some ⟨("ping").data, []⟩)] := by
  constructor
  · exact conn_read_fifo.1 [ConnOp.ctl, ConnOp.ctl, ConnOp.dataRead 1, ConnOp.dataRead 5]
      [WSFrame.bin [1, 2], WSFrame.txt (some ⟨("ping").data, []⟩), WSFrame.bin [3]]
  · exact conn_read_fifo.2.2.1
      [WSFrame.bin [1, 2], WSFrame.txt (some ⟨("ping").data, []⟩)] []
      ⟨("ping").data, []⟩ (by decide)

end Tunnel
